import Mathlib

/-!
Verification of the superfundev token service (src/src/main.rs).

The service is a small HTTP wrapper around the Solana SDK.  This file gives a
shallow embedding of the request handlers and of the SDK functions they call:

* base58 text encoding (the bs58 crate, Bitcoin alphabet), used by
  Pubkey::from_str, Signature::from_str, Keypair::from_base58_string and the
  corresponding to-string directions;
* keypairs, instructions, transactions and the signing rules of
  Transaction::new_signed_with_payer (a missing required signer makes
  Transaction::sign panic);
* the instruction builders system_instruction::create_account,
  spl_token::instruction::initialize_mint and spl_token::instruction::transfer;
* program-derived-address search (find_program_address), with the SHA-256 hash
  and the curve membership test kept abstract as an explicit parameter, since
  they belong to external cryptographic libraries;
* the handlers create_token, sign_message, verify_message, send_spl_token and
  execute_spl_transfer, with the remote node modelled as an explicit
  environment and every network call recorded in a trace.

Machine integers are modelled as Nat (all arithmetic here stays far from any
overflow boundary: lamports, space and amount are u64 values used opaquely).
Panics (Rust unwrap on an error value) are modelled as an explicit error of an
Except type.  The cryptographic primitives, ed25519 sign and verify and
SHA-256, are parameters of the definitions that use them; everything else is
translated from the source.
-/

set_option maxRecDepth 8000

namespace Superfundev

/-! ## Bytes and UTF-8

Rust str::as_bytes yields the UTF-8 bytes of a string.  Bytes are Nat values
below 256. -/

/-- UTF-8 encoding of one unicode scalar value (Rust char), as bytes. -/
def utf8Char (c : Char) : List Nat :=
  let n := c.toNat
  if n < 128 then [n]
  else if n < 2048 then [192 + n / 64, 128 + n % 64]
  else if n < 65536 then [224 + n / 4096, 128 + n / 64 % 64, 128 + n % 64]
  else [240 + n / 262144, 128 + n / 4096 % 64, 128 + n / 64 % 64, 128 + n % 64]

/-- Rust str::as_bytes: the UTF-8 byte sequence of a string. -/
def utf8Bytes (s : String) : List Nat :=
  s.data.flatMap utf8Char

/-! ## Base58 (the bs58 crate, Bitcoin alphabet)

A byte string is encoded by writing one alphabet character 1 per leading zero
byte and then the remaining bytes, read as a big-endian number, in base 58,
most significant digit first.  Decoding inverts this: leading 1 characters
become zero bytes and the whole digit string is read as a base-58 number whose
big-endian base-256 digits are the remaining bytes. -/

/-- The Bitcoin base58 alphabet (0, O, I and l are excluded). -/
def base58Alphabet : List Char :=
  "123456789ABCDEFGHJKLMNPQRSTUVWXYZabcdefghijkmnopqrstuvwxyz".data

/-- The alphabet character of a base-58 digit. -/
def charOfDigit (d : Nat) : Char :=
  base58Alphabet.getD d '1'

/-- Linear search of a character in the alphabet, returning its digit value. -/
def lookupDigit : List Char → Nat → Char → Option Nat
  | [], _, _ => none
  | a :: as, i, c => if a = c then some i else lookupDigit as (i + 1) c

/-- The base-58 digit value of a character, none when the character is not in
the alphabet. -/
def digitOfChar (c : Char) : Option Nat :=
  lookupDigit base58Alphabet 0 c

/-- Little-endian base-b digits of n, with an explicit structural fuel so that
the kernel can evaluate it.  Agrees with Nat.digits when the fuel is large
enough (digitsFuel_eq_digits). -/
def digitsFuel (b : Nat) : Nat → Nat → List Nat
  | 0, _ => []
  | f + 1, n => if n = 0 then [] else n % b :: digitsFuel b f (n / b)

/-- Read a digit list as a big-endian base-b number, the way the bs58 crate
folds characters into its accumulator. -/
def beNat (b : Nat) (l : List Nat) : Nat :=
  l.foldl (fun a d => a * b + d) 0

/-- Map every character to its base-58 digit; none if any character is
outside the alphabet. -/
def digitsOfChars : List Char → Option (List Nat)
  | [] => some []
  | c :: cs =>
    match digitOfChar c, digitsOfChars cs with
    | some d, some ds => some (d :: ds)
    | _, _ => none

/-- bs58 decoding of a character list: fails on a character outside the
alphabet; otherwise each leading 1 becomes a zero byte and the whole string,
read as a base-58 number, supplies the remaining big-endian bytes. -/
def b58decodeChars (chars : List Char) : Option (List Nat) :=
  match digitsOfChars chars with
  | none => none
  | some ds =>
    let z := (ds.takeWhile (fun d => d == 0)).length
    let n := beNat 58 ds
    some (List.replicate z 0 ++ (digitsFuel 256 chars.length n).reverse)

/-- bs58 encoding of a byte list: one character 1 per leading zero byte, then
the base-58 digits of the big-endian value of the bytes, most significant
first. -/
def b58encodeBytes (bytes : List Nat) : List Char :=
  let z := (bytes.takeWhile (fun b => b == 0)).length
  let n := beNat 256 bytes
  List.replicate z '1' ++ ((digitsFuel 58 (2 * bytes.length) n).map charOfDigit).reverse

/-- bs58 decoding of a string. -/
def b58decode (s : String) : Option (List Nat) :=
  b58decodeChars s.data

/-- bs58 encoding of a byte list as a string. -/
def b58encode (bytes : List Nat) : String :=
  String.mk (b58encodeBytes bytes)

/-! ### Facts about the base58 embedding -/

theorem digitsFuel_zero (b f : Nat) : digitsFuel b f 0 = [] := by
  cases f <;> simp [digitsFuel]

theorem digitsFuel_eq_digits {b : Nat} (hb : 1 < b) (f : Nat) :
    ∀ n, n < b ^ f → digitsFuel b f n = Nat.digits b n := by
  induction f with
  | zero =>
    intro n h
    simp only [pow_zero, Nat.lt_one_iff] at h
    subst h
    simp [digitsFuel]
  | succ f ih =>
    intro n h
    by_cases hn : n = 0
    · subst hn; simp [digitsFuel]
    · simp only [digitsFuel, if_neg hn]
      rw [Nat.digits_def' hb (Nat.pos_of_ne_zero hn)]
      congr 1
      apply ih
      have hb0 : 0 < b := lt_trans Nat.zero_lt_one hb
      rw [Nat.div_lt_iff_lt_mul hb0]
      calc n < b ^ (f + 1) := h
        _ = b ^ f * b := by ring

theorem beNat_aux (b : Nat) :
    ∀ (l : List Nat) (a : Nat),
      l.foldl (fun x d => x * b + d) a = a * b ^ l.length + Nat.ofDigits b l.reverse := by
  intro l
  induction l with
  | nil => intro a; simp
  | cons x xs ih =>
    intro a
    simp only [List.foldl_cons, List.reverse_cons, List.length_cons]
    rw [ih (a * b + x), Nat.ofDigits_append]
    simp only [Nat.ofDigits_singleton, List.length_reverse, Nat.cast_id]
    ring

theorem beNat_eq_ofDigits (b : Nat) (l : List Nat) :
    beNat b l = Nat.ofDigits b l.reverse := by
  simpa [beNat] using beNat_aux b l 0

theorem beNat_lt {b : Nat} (hb : 1 < b) (l : List Nat) (h : ∀ x ∈ l, x < b) :
    beNat b l < b ^ l.length := by
  rw [beNat_eq_ofDigits]
  have := Nat.ofDigits_lt_base_pow_length hb
    (l := l.reverse) (fun x hx => h x (List.mem_reverse.mp hx))
  simpa using this

theorem beNat_replicate_zero (b z : Nat) :
    beNat b (List.replicate z 0) = 0 := by
  induction z with
  | zero => rfl
  | succ z ih =>
    simp only [beNat, List.replicate_succ, List.foldl_cons] at ih ⊢
    simpa using ih

theorem beNat_replicate_zero_append (b z : Nat) (l : List Nat) :
    beNat b (List.replicate z 0 ++ l) = beNat b l := by
  simp only [beNat, List.foldl_append]
  have h0 : List.foldl (fun x d => x * b + d) 0 (List.replicate z 0) = 0 :=
    beNat_replicate_zero b z
  rw [h0]

theorem ofDigits_replicate_zero (b z : Nat) :
    Nat.ofDigits b (List.replicate z 0) = 0 := by
  induction z with
  | zero => rfl
  | succ z ih => simp [List.replicate_succ, Nat.ofDigits_cons, ih]

theorem digitOfChar_one : digitOfChar '1' = some 0 := by decide

theorem digitOfChar_charOfDigit : ∀ d < 58, digitOfChar (charOfDigit d) = some d := by decide

theorem digitsOfChars_append {l1 l2 : List Char} {d1 d2 : List Nat}
    (h1 : digitsOfChars l1 = some d1) (h2 : digitsOfChars l2 = some d2) :
    digitsOfChars (l1 ++ l2) = some (d1 ++ d2) := by
  induction l1 generalizing d1 with
  | nil =>
    simp only [digitsOfChars, Option.some.injEq] at h1
    subst h1
    simpa using h2
  | cons c cs ih =>
    simp only [digitsOfChars] at h1
    cases hc : digitOfChar c with
    | none => rw [hc] at h1; exact absurd h1 (by simp)
    | some d =>
      rw [hc] at h1
      cases hcs : digitsOfChars cs with
      | none => rw [hcs] at h1; exact absurd h1 (by simp)
      | some ds =>
        rw [hcs] at h1
        simp only [Option.some.injEq] at h1
        subst h1
        simp only [List.cons_append, digitsOfChars, hc, List.append_eq, ih hcs]

theorem digitsOfChars_replicate_one (z : Nat) :
    digitsOfChars (List.replicate z '1') = some (List.replicate z 0) := by
  induction z with
  | zero => rfl
  | succ z ih => simp [List.replicate_succ, digitsOfChars, digitOfChar_one, ih]

theorem digitsOfChars_map_charOfDigit {l : List Nat} (h : ∀ d ∈ l, d < 58) :
    digitsOfChars (l.map charOfDigit) = some l := by
  induction l with
  | nil => rfl
  | cons d ds ih =>
    have hd : d < 58 := h d (by simp)
    have hds := ih (fun x hx => h x (by simp [hx]))
    simp [digitsOfChars, digitOfChar_charOfDigit d hd, hds]

theorem takeWhile_replicate_zero_append (z : Nat) (l : List Nat) :
    (List.replicate z 0 ++ l).takeWhile (fun d => d == 0) =
      List.replicate z 0 ++ l.takeWhile (fun d => d == 0) := by
  induction z with
  | zero => simp
  | succ z ih => simp [List.replicate_succ, List.takeWhile_cons, ih]

theorem dropWhile_cases (p : Nat → Bool) :
    ∀ l : List Nat, l.dropWhile p = [] ∨ ∃ a t, l.dropWhile p = a :: t ∧ p a = false := by
  intro l
  induction l with
  | nil => exact Or.inl rfl
  | cons c cs ih =>
    by_cases hc : p c
    · simpa [List.dropWhile_cons, hc] using ih
    · exact Or.inr ⟨c, cs, by simp [List.dropWhile_cons, hc], by simpa using hc⟩

theorem takeWhile_digits_reverse (b n : Nat) :
    (Nat.digits b n).reverse.takeWhile (fun d => d == 0) = [] := by
  by_cases hn : n = 0
  · subst hn; simp
  · have hne : Nat.digits b n ≠ [] := Nat.digits_ne_nil_iff_ne_zero.mpr hn
    have hlast := Nat.getLast_digit_ne_zero b hn
    cases hr : (Nat.digits b n).reverse with
    | nil => simp
    | cons d dt =>
      have h1 : (Nat.digits b n).reverse.head? = some d := by rw [hr]; rfl
      rw [List.head?_reverse] at h1
      have h2 : (Nat.digits b n).getLast? = some ((Nat.digits b n).getLast hne) :=
        List.getLast?_eq_getLast _ hne
      rw [h2] at h1
      have hd : d ≠ 0 := by
        injection h1 with h1
        rw [← h1]
        exact hlast
      simp [List.takeWhile_cons, hd]

/-- The shape of the encoder on a byte list presented as its leading zeros
followed by a suffix that does not start with a zero. -/
theorem b58encodeBytes_split (z : Nat) (rest : List Nat) (hrest : ∀ x ∈ rest, x < 256)
    (hhead : rest = [] ∨ ∃ a t, rest = a :: t ∧ a ≠ 0) :
    b58encodeBytes (List.replicate z 0 ++ rest) =
      List.replicate z '1' ++
        ((Nat.digits 58 (beNat 256 rest)).map charOfDigit).reverse := by
  have hrtw : rest.takeWhile (fun d => d == 0) = [] := by
    rcases hhead with rfl | ⟨a, t, rfl, ha⟩
    · rfl
    · simp [List.takeWhile_cons, ha]
  have htwlen : ((List.replicate z 0 ++ rest).takeWhile (fun d => d == 0)).length = z := by
    rw [takeWhile_replicate_zero_append, hrtw]
    simp
  have hbe : beNat 256 (List.replicate z 0 ++ rest) = beNat 256 rest :=
    beNat_replicate_zero_append 256 z rest
  have hlen2 : (List.replicate z 0 ++ rest).length = z + rest.length := by simp
  have hfuel : beNat 256 rest < 58 ^ (2 * (z + rest.length)) := by
    calc beNat 256 rest < 256 ^ rest.length := beNat_lt (by norm_num) rest hrest
      _ ≤ 256 ^ (z + rest.length) := Nat.pow_le_pow_right (by norm_num) (by omega)
      _ ≤ (58 ^ 2) ^ (z + rest.length) := Nat.pow_le_pow_left (by norm_num) _
      _ = 58 ^ (2 * (z + rest.length)) := (pow_mul 58 2 _).symm
  simp only [b58encodeBytes, htwlen, hbe, hlen2]
  rw [digitsFuel_eq_digits (by norm_num) _ _ hfuel]

/-- Round trip on the split presentation of a byte list. -/
theorem b58_roundtrip_split (z : Nat) (rest : List Nat) (hrest : ∀ x ∈ rest, x < 256)
    (hhead : rest = [] ∨ ∃ a t, rest = a :: t ∧ a ≠ 0) :
    b58decodeChars (b58encodeBytes (List.replicate z 0 ++ rest)) =
      some (List.replicate z 0 ++ rest) := by
  have hencode := b58encodeBytes_split z rest hrest hhead
  have hdchars : digitsOfChars
      (List.replicate z '1' ++ ((Nat.digits 58 (beNat 256 rest)).map charOfDigit).reverse) =
        some (List.replicate z 0 ++ (Nat.digits 58 (beNat 256 rest)).reverse) := by
    apply digitsOfChars_append (digitsOfChars_replicate_one z)
    rw [← List.map_reverse]
    exact digitsOfChars_map_charOfDigit
      (fun d hd => Nat.digits_lt_base (by norm_num) (List.mem_reverse.mp hd))
  have hz2 : ((List.replicate z 0 ++
      (Nat.digits 58 (beNat 256 rest)).reverse).takeWhile (fun d => d == 0)).length = z := by
    rw [takeWhile_replicate_zero_append, takeWhile_digits_reverse 58 _]
    simp
  have hnn : beNat 58 (List.replicate z 0 ++ (Nat.digits 58 (beNat 256 rest)).reverse) =
      beNat 256 rest := by
    rw [beNat_replicate_zero_append, beNat_eq_ofDigits, List.reverse_reverse,
      Nat.ofDigits_digits]
  have hcl : (List.replicate z '1' ++
      ((Nat.digits 58 (beNat 256 rest)).map charOfDigit).reverse).length =
        z + (Nat.digits 58 (beNat 256 rest)).length := by simp
  have hflt : beNat 256 rest < 256 ^ (z + (Nat.digits 58 (beNat 256 rest)).length) := by
    calc beNat 256 rest < 58 ^ (Nat.digits 58 (beNat 256 rest)).length :=
          Nat.lt_base_pow_length_digits (by norm_num)
      _ ≤ 256 ^ (Nat.digits 58 (beNat 256 rest)).length := Nat.pow_le_pow_left (by norm_num) _
      _ ≤ 256 ^ (z + (Nat.digits 58 (beNat 256 rest)).length) :=
          Nat.pow_le_pow_right (by norm_num) (by omega)
  have hofd : Nat.ofDigits 256 rest.reverse = beNat 256 rest := (beNat_eq_ofDigits 256 rest).symm
  have hdig : Nat.digits 256 (beNat 256 rest) = rest.reverse := by
    rw [← hofd]
    apply Nat.digits_ofDigits 256 (by norm_num)
    · intro x hx
      exact hrest x (List.mem_reverse.mp hx)
    · intro hne
      rcases hhead with rfl | ⟨a, t, rfl, ha⟩
      · simp at hne
      · have hga : (a :: t).reverse.getLast? = some a := by rw [List.getLast?_reverse]; rfl
        have h2 := List.getLast?_eq_getLast (a :: t).reverse hne
        rw [h2] at hga
        injection hga with h3
        rw [h3]
        exact ha
  rw [hencode]
  simp only [b58decodeChars, hdchars]
  rw [hz2, hcl, hnn, digitsFuel_eq_digits (by norm_num) _ _ hflt, hdig, List.reverse_reverse]

/-- bs58 decoding is a left inverse of bs58 encoding on byte lists. -/
theorem b58_roundtrip (bytes : List Nat) (h : ∀ x ∈ bytes, x < 256) :
    b58decodeChars (b58encodeBytes bytes) = some bytes := by
  have hsplit := List.takeWhile_append_dropWhile (p := fun d => d == 0) (l := bytes)
  have htw : bytes.takeWhile (fun d => d == 0) =
      List.replicate (bytes.takeWhile (fun d => d == 0)).length 0 := by
    apply List.eq_replicate_of_mem
    intro x hx
    simpa using List.mem_takeWhile_imp hx
  have hhead : bytes.dropWhile (fun d => d == 0) = [] ∨
      ∃ a t, bytes.dropWhile (fun d => d == 0) = a :: t ∧ a ≠ 0 := by
    rcases dropWhile_cases (fun d => d == 0) bytes with h1 | ⟨a, t, h1, h2⟩
    · exact Or.inl h1
    · exact Or.inr ⟨a, t, h1, by simpa using h2⟩
  have hres := b58_roundtrip_split (bytes.takeWhile (fun d => d == 0)).length
    (bytes.dropWhile (fun d => d == 0))
    (fun x hx => h x (by rw [← hsplit]; exact List.mem_append.mpr (Or.inr hx)))
    hhead
  rw [← htw, hsplit] at hres
  exact hres

/-! ### Length bound of the encoder -/

theorem digits_len_le_of_lt_pow {b n k : Nat} (hb : 1 < b) (h : n < b ^ k) :
    (Nat.digits b n).length ≤ k := by
  induction k generalizing n with
  | zero =>
    simp only [pow_zero, Nat.lt_one_iff] at h
    subst h
    simp
  | succ k ih =>
    by_cases hn : n = 0
    · subst hn; simp
    · rw [Nat.digits_def' hb (Nat.pos_of_ne_zero hn)]
      simp only [List.length_cons]
      have hdiv : n / b < b ^ k := by
        rw [Nat.div_lt_iff_lt_mul (lt_trans Nat.zero_lt_one hb)]
        calc n < b ^ (k + 1) := h
          _ = b ^ k * b := by ring
      exact Nat.succ_le_succ (ih hdiv)

theorem pow_le_helper (L E a : Nat) (hbase : 256 ^ L ≤ 58 ^ (L + E)) (ha : a ≤ L) :
    256 ^ a ≤ 58 ^ (E + a) := by
  have h1 : 58 ^ (L - a) ≤ 256 ^ (L - a) := Nat.pow_le_pow_left (by norm_num) _
  have h2 : 256 ^ a * 58 ^ (L - a) ≤ 256 ^ a * 256 ^ (L - a) := Nat.mul_le_mul_left _ h1
  have h3 : 256 ^ a * 256 ^ (L - a) = 256 ^ L := by rw [← pow_add]; congr 1; omega
  have h4 : 58 ^ (L + E) = 58 ^ (E + a) * 58 ^ (L - a) := by rw [← pow_add]; congr 1; omega
  have h5 : 256 ^ a * 58 ^ (L - a) ≤ 58 ^ (E + a) * 58 ^ (L - a) := by
    calc 256 ^ a * 58 ^ (L - a) ≤ 256 ^ a * 256 ^ (L - a) := h2
      _ = 256 ^ L := h3
      _ ≤ 58 ^ (L + E) := hbase
      _ = 58 ^ (E + a) * 58 ^ (L - a) := h4
  exact Nat.le_of_mul_le_mul_right h5 (pow_pos (by norm_num) _)

theorem b58encodeBytes_length_split (z : Nat) (rest : List Nat)
    (hrest : ∀ x ∈ rest, x < 256)
    (hhead : rest = [] ∨ ∃ a t, rest = a :: t ∧ a ≠ 0) (E : Nat)
    (hbase : 256 ^ (z + rest.length) ≤ 58 ^ (z + rest.length + E)) :
    (b58encodeBytes (List.replicate z 0 ++ rest)).length ≤ z + rest.length + E := by
  rw [b58encodeBytes_split z rest hrest hhead]
  simp only [List.length_append, List.length_replicate, List.length_reverse, List.length_map]
  have hlt : beNat 256 rest < 58 ^ (E + rest.length) :=
    lt_of_lt_of_le (beNat_lt (by norm_num) rest hrest)
      (pow_le_helper (z + rest.length) E rest.length hbase (by omega))
  have hdl := digits_len_le_of_lt_pow (b := 58) (by norm_num) hlt
  omega

/-- Length bound of the encoder: if 256 to the input length is at most 58 to
the input length plus E, the encoded string has at most input length plus E
characters. -/
theorem b58encodeBytes_length_le (bytes : List Nat) (h : ∀ x ∈ bytes, x < 256) (E : Nat)
    (hbase : 256 ^ bytes.length ≤ 58 ^ (bytes.length + E)) :
    (b58encodeBytes bytes).length ≤ bytes.length + E := by
  have hsplit := List.takeWhile_append_dropWhile (p := fun d => d == 0) (l := bytes)
  have htw : bytes.takeWhile (fun d => d == 0) =
      List.replicate (bytes.takeWhile (fun d => d == 0)).length 0 := by
    apply List.eq_replicate_of_mem
    intro x hx
    simpa using List.mem_takeWhile_imp hx
  have hhead : bytes.dropWhile (fun d => d == 0) = [] ∨
      ∃ a t, bytes.dropWhile (fun d => d == 0) = a :: t ∧ a ≠ 0 := by
    rcases dropWhile_cases (fun d => d == 0) bytes with h1 | ⟨a, t, h1, h2⟩
    · exact Or.inl h1
    · exact Or.inr ⟨a, t, h1, by simpa using h2⟩
  have hlen : (bytes.takeWhile (fun d => d == 0)).length +
      (bytes.dropWhile (fun d => d == 0)).length = bytes.length := by
    have h2 := congrArg List.length hsplit
    rw [List.length_append] at h2
    exact h2
  have hres := b58encodeBytes_length_split (bytes.takeWhile (fun d => d == 0)).length
    (bytes.dropWhile (fun d => d == 0))
    (fun x hx => h x (by rw [← hsplit]; exact List.mem_append.mpr (Or.inr hx)))
    hhead E (by rw [hlen]; exact hbase)
  rw [← htw, hsplit] at hres
  omega

/-! ## Solana SDK: keys, text codecs -/

/-- A 32-byte account address (solana_sdk::pubkey::Pubkey). -/
abbrev Pubkey := List Nat

/-- solana_sdk Keypair (ed25519_dalek pair): 32 secret bytes and 32 public
bytes.  Keypair::from_bytes splits 64 bytes into the two halves; the curve
validity check of the public half lives in the external crypto library and is
not modelled (it accepts every byte string produced by Keypair::to_bytes, the
only case the proofs rely on). -/
structure Keypair where
  secret : List Nat
  pub : List Nat
deriving DecidableEq

/-- A byte list of length n with every byte below 256. -/
def wfBytes (l : List Nat) (n : Nat) : Prop :=
  l.length = n ∧ ∀ x ∈ l, x < 256

/-- Both halves of a keypair are well-formed 32-byte strings, as produced by
Keypair::new. -/
def wfKeypair (kp : Keypair) : Prop :=
  wfBytes kp.secret 32 ∧ wfBytes kp.pub 32

instance : DecidablePred (fun l => wfBytes l 32) := fun _ => by
  unfold wfBytes; infer_instance

/-- Pubkey::from_str: reject strings longer than MAX_BASE58_LEN = 44, base58
decode, require exactly 32 bytes.  Rust measures the length in UTF-8 bytes;
for any string that base58-decodes the two measures coincide, so character
count is used here (a string with a multi-byte character fails the decode in
both settings). -/
def pubkeyFromStr (s : String) : Option Pubkey :=
  if s.length > 44 then none
  else match b58decode s with
    | none => none
    | some bytes => if bytes.length = 32 then some bytes else none

/-- Signature::from_str: reject strings longer than MAX_BASE58_SIGNATURE_LEN
= 88, base58 decode, require exactly 64 bytes. -/
def sigFromStr (s : String) : Option (List Nat) :=
  if s.length > 88 then none
  else match b58decode s with
    | none => none
    | some bytes => if bytes.length = 64 then some bytes else none

/-- Pubkey Display: base58 of the 32 bytes. -/
def pubkeyToString (p : Pubkey) : String := b58encode p

/-- Signature Display: base58 of the 64 bytes. -/
def sigToString (s : List Nat) : String := b58encode s

/-- Keypair::to_base58_string: base58 of the 64 bytes secret-then-public. -/
def keypairToBase58String (kp : Keypair) : String := b58encode (kp.secret ++ kp.pub)

/-- Keypair::from_bytes: requires exactly 64 bytes, secret half then public
half; none models the error case. -/
def keypairFromBytes (bytes : List Nat) : Option Keypair :=
  if bytes.length = 64 then some ⟨bytes.take 32, bytes.drop 32⟩ else none

/-- Keypair::from_base58_string: bs58 decode then from_bytes; the Rust source
unwraps both results, so none here corresponds to a panic at the call site. -/
def keypairFromBase58String (s : String) : Option Keypair :=
  match b58decode s with
  | none => none
  | some bytes => keypairFromBytes bytes

theorem pubkeyFromStr_toString (p : Pubkey) (h : wfBytes p 32) :
    pubkeyFromStr (pubkeyToString p) = some p := by
  obtain ⟨hl, hb⟩ := h
  have hlen : (b58encodeBytes p).length ≤ 44 := by
    have := b58encodeBytes_length_le p hb 12 (by rw [hl]; norm_num)
    omega
  have hslen : (String.mk (b58encodeBytes p)).length = (b58encodeBytes p).length := rfl
  unfold pubkeyFromStr pubkeyToString b58encode
  rw [if_neg (by omega)]
  have hdata : b58decode (String.mk (b58encodeBytes p)) = b58decodeChars (b58encodeBytes p) :=
    rfl
  rw [hdata, b58_roundtrip p hb]
  simp [hl]

theorem sigFromStr_toString (s : List Nat) (h : wfBytes s 64) :
    sigFromStr (sigToString s) = some s := by
  obtain ⟨hl, hb⟩ := h
  have hlen : (b58encodeBytes s).length ≤ 88 := by
    have := b58encodeBytes_length_le s hb 24 (by rw [hl]; norm_num)
    omega
  have hslen : (String.mk (b58encodeBytes s)).length = (b58encodeBytes s).length := rfl
  unfold sigFromStr sigToString b58encode
  rw [if_neg (by omega)]
  have hdata : b58decode (String.mk (b58encodeBytes s)) = b58decodeChars (b58encodeBytes s) :=
    rfl
  rw [hdata, b58_roundtrip s hb]
  simp [hl]

theorem keypairFromBase58String_toBase58String (kp : Keypair) (h : wfKeypair kp) :
    keypairFromBase58String (keypairToBase58String kp) = some kp := by
  obtain ⟨s, p⟩ := kp
  obtain ⟨⟨hsl, hsb⟩, ⟨hpl, hpb⟩⟩ := h
  have hall : ∀ x ∈ s ++ p, x < 256 := by
    intro x hx
    rcases List.mem_append.mp hx with h1 | h1
    · exact hsb x h1
    · exact hpb x h1
  unfold keypairFromBase58String keypairToBase58String b58encode
  have hdata : b58decode (String.mk (b58encodeBytes (s ++ p))) =
      b58decodeChars (b58encodeBytes (s ++ p)) := rfl
  rw [hdata, b58_roundtrip _ hall]
  have hsl' : s.length = 32 := by simpa using hsl
  have hpl' : p.length = 32 := by simpa using hpl
  simp [keypairFromBytes, hsl', hpl', List.take_left' hsl', List.drop_left' hsl']

/-! ## Solana SDK: program identifiers -/

/-- spl_token::id, the token program address. -/
def spl_token_id : Pubkey :=
  (b58decode "TokenkegQfeZyiNwAJbNbGKPFXCWuBvf9Ss623VQ5DA").getD []

/-- spl_associated_token_account::id, the associated token account program. -/
def ata_program_id : Pubkey :=
  (b58decode "ATokenGPvbdGVxr1b2hvZbsiqW5xWH25efTNsLJA8knL").getD []

/-- The system program address, 32 zero bytes. -/
def system_program_id : Pubkey := List.replicate 32 0

/-- sysvar::rent::id. -/
def sysvar_rent_id : Pubkey :=
  (b58decode "SysvarRent111111111111111111111111111111111").getD []

/-- The domain separation marker appended by create_program_address before
hashing. -/
def pda_marker : List Nat := utf8Bytes "ProgramDerivedAddress"

/-! ## Solana SDK: instructions and transactions -/

/-- solana_sdk AccountMeta: an account reference inside an instruction. -/
structure AccountMeta where
  pubkey : Pubkey
  is_signer : Bool
  is_writable : Bool
deriving DecidableEq

/-- The instruction payload bytes, kept structured: the serializers of the
system and token programs are injective, so the payload is modelled by the
data it encodes. -/
inductive IxData where
  | createAccount (lamports : Nat) (space : Nat) (owner : Pubkey)
  | initMint (decimals : Nat) (mint_authority : Pubkey) (freeze_authority : Option Pubkey)
  | tokenTransfer (amount : Nat)
deriving DecidableEq

/-- solana_sdk Instruction. -/
structure Instruction where
  program_id : Pubkey
  accounts : List AccountMeta
  data : IxData
deriving DecidableEq

/-- system_instruction::create_account: funder and new account are both
writable signers. -/
def create_account (from_pubkey to_pubkey : Pubkey) (lamports space : Nat)
    (owner : Pubkey) : Instruction :=
  ⟨system_program_id,
    [⟨from_pubkey, true, true⟩, ⟨to_pubkey, true, true⟩],
    .createAccount lamports space owner⟩

/-- spl_token::instruction::initialize_mint: checks the program id, accounts
are the writable mint and the read-only rent sysvar, neither a signer.  The
Rust builder returns Result; none is the error case. -/
def init_mint (token_program_id mint_pubkey mint_authority_pubkey : Pubkey)
    (freeze_authority_pubkey : Option Pubkey) (decimals : Nat) : Option Instruction :=
  if token_program_id = spl_token_id then
    some ⟨token_program_id,
      [⟨mint_pubkey, false, true⟩, ⟨sysvar_rent_id, false, false⟩],
      .initMint decimals mint_authority_pubkey freeze_authority_pubkey⟩
  else none

/-- spl_token::instruction::transfer: checks the program id; source and
destination are writable non-signers; the authority is read-only and is a
signer exactly when the multisig signer list is empty; each multisig signer
is a read-only signer. -/
def spl_transfer (token_program_id source_pubkey destination_pubkey authority_pubkey : Pubkey)
    (signer_pubkeys : List Pubkey) (amount : Nat) : Option Instruction :=
  if token_program_id = spl_token_id then
    some ⟨token_program_id,
      ⟨source_pubkey, false, true⟩ :: ⟨destination_pubkey, false, true⟩ ::
        ⟨authority_pubkey, signer_pubkeys.isEmpty, false⟩ ::
        signer_pubkeys.map (fun sp => ⟨sp, true, false⟩),
      .tokenTransfer amount⟩
  else none

/-- A signed transaction: the instruction list, the fee payer, the freshness
token (recent blockhash) and the set of addresses whose signatures are
attached. -/
structure Transaction where
  instructions : List Instruction
  fee_payer : Pubkey
  recent_blockhash : Nat
  signer_pubkeys : List Pubkey
deriving DecidableEq

/-- The required signer set of a message: the fee payer plus every account
marked signer across all instructions (kept with duplicates; only membership
matters). -/
def requiredSigners (instructions : List Instruction) (payer : Pubkey) : List Pubkey :=
  payer :: instructions.flatMap
    (fun i => (i.accounts.filter (fun a => a.is_signer)).map (fun a => a.pubkey))

/-- A Rust panic (unwrap of an error, or Transaction::sign failing). -/
inductive Panic where
  | panic
deriving DecidableEq

/-- Transaction::new_signed_with_payer.  It calls Transaction::new, which
calls sign: presenting a keypair whose address is not a required signer
panics (KeypairPubkeyMismatch), and leaving any required signer uncovered
panics (NotEnoughSigners).  Both panics are modelled by the error case. -/
def new_signed_with_payer (instructions : List Instruction) (payer : Pubkey)
    (signers : List Keypair) (recent_blockhash : Nat) : Except Panic Transaction :=
  if (∀ kp ∈ signers, kp.pub ∈ requiredSigners instructions payer) ∧
      (∀ r ∈ requiredSigners instructions payer, ∃ kp ∈ signers, kp.pub = r) then
    .ok ⟨instructions, payer, recent_blockhash, signers.map (fun kp => kp.pub)⟩
  else .error .panic

/-! ## Solana SDK: program derived addresses

The SHA-256 hash and the ed25519 curve membership test are external
cryptographic primitives, passed in as an explicit parameter. -/

/-- The cryptographic primitives used by address derivation. -/
structure HashModel where
  sha256 : List Nat → List Nat
  is_on_curve : List Nat → Bool

/-- The two error kinds of Pubkey::create_program_address; the bump search
treats them differently (InvalidSeeds continues, MaxSeedLengthExceeded
breaks). -/
inductive PubkeyError where
  | invalidSeeds
  | maxSeedLengthExceeded
deriving DecidableEq

/-- MAX_SEEDS of the solana-sdk. -/
def maxSeeds : Nat := 16

/-- MAX_SEED_LEN of the solana-sdk. -/
def maxSeedLen : Nat := 32

/-- Pubkey::create_program_address: reject more than MAX_SEEDS seeds or any
seed longer than MAX_SEED_LEN with MaxSeedLengthExceeded, then hash the
seeds, the program id and the marker; an on-curve result is InvalidSeeds. -/
def create_program_address (hm : HashModel) (seeds : List (List Nat))
    (program_id : Pubkey) : Except PubkeyError Pubkey :=
  if seeds.length > maxSeeds then .error .maxSeedLengthExceeded
  else if seeds.any (fun s => s.length > maxSeedLen) then .error .maxSeedLengthExceeded
  else
    let h := hm.sha256 (seeds.flatten ++ program_id ++ pda_marker)
    if hm.is_on_curve h then .error .invalidSeeds else .ok h

/-- The bump loop of Pubkey::try_find_program_address: return the first bump
whose candidate is accepted, keep searching on InvalidSeeds, and break (the
whole search answers none) on any other error. -/
def findBumpAux (hm : HashModel) (seeds : List (List Nat)) (program_id : Pubkey) :
    List Nat → Option (Pubkey × Nat)
  | [] => none
  | bump :: rest =>
    match create_program_address hm (seeds ++ [[bump]]) program_id with
    | .ok addr => some (addr, bump)
    | .error .invalidSeeds => findBumpAux hm seeds program_id rest
    | .error .maxSeedLengthExceeded => none

/-- Pubkey::try_find_program_address: the Rust loop runs u8::MAX = 255
iterations with the bump starting at 255 and decremented at the end of each
iteration, so the bumps tried are 255 down to 1 and the bump 0 is never
tried. -/
def try_find_program_address (hm : HashModel) (seeds : List (List Nat))
    (program_id : Pubkey) : Option (Pubkey × Nat) :=
  findBumpAux hm seeds program_id (List.range' 1 255).reverse

/-- spl_associated_token_account::get_associated_token_address: the derived
address for seeds (wallet, token program, mint) under the associated token
program.  The Rust find_program_address unwraps; none models that panic. -/
def get_associated_token_address (hm : HashModel)
    (wallet_address token_mint_address : Pubkey) : Option Pubkey :=
  (try_find_program_address hm [wallet_address, spl_token_id, token_mint_address]
    ata_program_id).map Prod.fst

/-! ## The remote node and the HTTP layer -/

/-- The remote node reached through the RpcClient, as a total environment:
the answers the node gives to the three queries the service makes.  Network
failures are not modelled (the source unwraps them, a separate concern from
the claims below). -/
structure LedgerEnv where
  min_balance : Nat → Nat
  latest_blockhash : Nat
  send_signature : Transaction → String

/-- One network call made by a handler, recorded in order. -/
inductive RpcCall where
  | getMinimumBalanceForRentExemption (space : Nat)
  | getLatestBlockhash
  | sendAndConfirmTransaction (tx : Transaction)
deriving DecidableEq

/-- The JSON values the handlers build with the json macro. -/
inductive Json where
  | null
  | bool (b : Bool)
  | num (n : Int)
  | str (s : String)
  | arr (elems : List Json)
  | obj (fields : List (String × Json))

/-- Deserialized body of POST /token/create.  decimals is an i32 in the
source, hosted in Int. -/
structure CreateTokenRequest where
  mint_authority : String
  mint : String
  decimals : Int

/-- Deserialized body of POST /message/sign. -/
structure SignMessageRequest where
  message : String
  secret : String

/-- Deserialized body of POST /message/verify. -/
structure VerifyMessageRequest where
  message : String
  signature : String
  pubkey : String

/-- Deserialized body of POST /send/token.  amount is a u64. -/
structure TransferRequest where
  destination : String
  mint : String
  owner : String
  amount : Nat

/-- HTTP status codes used by the handlers. -/
def statusOk : Nat := 200

def statusBadRequest : Nat := 400

def statusInternalServerError : Nat := 500

/-- spl_token::state::Mint::LEN, the fixed mint account size. -/
def mintLen : Nat := 82

/-! ## Handlers -/

/-- The create_token handler (main.rs lines 80 to 127).  The three keypairs
generated with Keypair::new at the top of the handler are passed in
explicitly, standing for the randomness.  The request body is a parameter
exactly as in the source, where it is bound and never read.  Returns the
network calls in order and the response (or a panic). -/
def create_token (env : LedgerEnv) (body : CreateTokenRequest)
    (payer mint_authority mint_keypair : Keypair) : List RpcCall × Except Panic Json :=
  let mint_rent := env.min_balance mintLen
  let create_mint_account_ix :=
    create_account payer.pub mint_keypair.pub mint_rent mintLen spl_token_id
  match init_mint spl_token_id mint_keypair.pub mint_authority.pub
      (some mint_authority.pub) 9 with
  | none => ([.getMinimumBalanceForRentExemption mintLen], .error .panic)
  | some init_mint_ix =>
    match new_signed_with_payer [create_mint_account_ix, init_mint_ix] payer.pub
        [payer, mint_keypair] env.latest_blockhash with
    | .error p =>
      ([.getMinimumBalanceForRentExemption mintLen, .getLatestBlockhash], .error p)
    | .ok transaction =>
      ([.getMinimumBalanceForRentExemption mintLen, .getLatestBlockhash,
        .sendAndConfirmTransaction transaction], .ok (Json.obj []))

/-- The sign_message handler (main.rs lines 135 to 152).  The ed25519
signing primitive is the parameter sign.  Keypair::from_base58_string
unwraps internally, so a malformed secret is a panic.  The response embeds
the message as its byte array, the way serde serializes a byte slice. -/
def sign_message (sign : Keypair → List Nat → List Nat) (body : SignMessageRequest) :
    Except Panic Json :=
  match keypairFromBase58String body.secret with
  | none => .error .panic
  | some keypair =>
    let message := utf8Bytes body.message
    let signature := sign keypair message
    .ok (Json.obj [("success", Json.bool true),
      ("data", Json.obj [
        ("signature", Json.str (sigToString signature)),
        ("public_key", Json.str (pubkeyToString keypair.pub)),
        ("message", Json.arr (message.map (fun b => Json.num (Int.ofNat b))))])])

/-- The verify_message handler (main.rs lines 161 to 203).  The ed25519
verification primitive is the parameter verify, taking the signature bytes,
the public key bytes and the message bytes. -/
def verify_message (verify : List Nat → Pubkey → List Nat → Bool)
    (body : VerifyMessageRequest) : Nat × Json :=
  let message := utf8Bytes body.message
  match sigFromStr body.signature, pubkeyFromStr body.pubkey with
  | some signature, some public_key =>
    if verify signature public_key message then
      (statusOk, Json.obj [("success", Json.bool true),
        ("data", Json.obj [("valid", Json.bool true),
          ("message", Json.str "Hello, Solana!"),
          ("pubkey", Json.str "base58-encoded-public-key")])])
    else
      (statusBadRequest, Json.obj [("success", Json.bool false),
        ("error", Json.str "Invalid signature")])
  | _, _ =>
    (statusBadRequest, Json.obj [("success", Json.bool false),
      ("error", Json.str "Missing Fields")])

/-- Outcome of execute_spl_transfer: a confirmed signature, a library error
propagated with the question mark operator, or a panic. -/
inductive ExecResult where
  | ok (signature : String)
  | libErr
  | panicked
deriving DecidableEq

/-- The execute_spl_transfer helper (main.rs lines 271 to 312).  It derives
the two associated token accounts, builds the transfer instruction with an
empty multisig signer list, fetches a blockhash, then calls
Transaction::new_signed_with_payer with the owner as fee payer and an empty
signer slice.  The handler builds its own RpcClient against a hardcoded
devnet endpoint; env stands for that node. -/
def execute_spl_transfer (hm : HashModel) (env : LedgerEnv)
    (owner_pubkey destination_pubkey mint_pubkey : Pubkey) (amount : Nat) :
    List RpcCall × ExecResult :=
  match get_associated_token_address hm owner_pubkey mint_pubkey,
      get_associated_token_address hm destination_pubkey mint_pubkey with
  | some source_ata, some destination_ata =>
    match spl_transfer spl_token_id source_ata destination_ata owner_pubkey [] amount with
    | none => ([], .libErr)
    | some transfer_instruction =>
      match new_signed_with_payer [transfer_instruction] owner_pubkey []
          env.latest_blockhash with
      | .error _ => ([.getLatestBlockhash], .panicked)
      | .ok transaction =>
        ([.getLatestBlockhash, .sendAndConfirmTransaction transaction],
          .ok (env.send_signature transaction))
  | _, _ => ([], .panicked)

/-- The send_spl_token handler (main.rs lines 213 to 269): parse destination,
mint and owner in that order, each failure answering 400 with a
field-identifying error before execute_spl_transfer runs; then map the
transfer outcome to 200 or 500.  Returns the response (or the propagated
panic) and the network calls made. -/
def send_spl_token (hm : HashModel) (env : LedgerEnv) (request : TransferRequest) :
    Except Panic (Nat × Json) × List RpcCall :=
  match pubkeyFromStr request.destination with
  | none =>
    (.ok (statusBadRequest, Json.obj [("error", Json.str "invalid_destination"),
      ("message", Json.str "Invalid destination address format")]), [])
  | some destination_pubkey =>
    match pubkeyFromStr request.mint with
    | none =>
      (.ok (statusBadRequest, Json.obj [("error", Json.str "invalid_mint"),
        ("message", Json.str "Invalid mint address format")]), [])
    | some mint_pubkey =>
      match pubkeyFromStr request.owner with
      | none =>
        (.ok (statusBadRequest, Json.obj [("error", Json.str "invalid_owner"),
          ("message", Json.str "Invalid owner address format")]), [])
      | some owner_pubkey =>
        match execute_spl_transfer hm env owner_pubkey destination_pubkey mint_pubkey
            request.amount with
        | (calls, .ok signature) =>
          (.ok (statusOk, Json.obj [("success", Json.bool true),
            ("signature", Json.str signature),
            ("message", Json.str "Transfer completed successfully")]), calls)
        | (calls, .libErr) =>
          (.ok (statusInternalServerError, Json.obj [("error", Json.str "transfer_failed"),
            ("message", Json.str "Transfer failed")]), calls)
        | (calls, .panicked) => (.error .panic, calls)

/-! ## Helper lemmas and test fixtures -/

instance (l : List Nat) (n : Nat) : Decidable (wfBytes l n) := by
  unfold wfBytes; infer_instance

instance (kp : Keypair) : Decidable (wfKeypair kp) := by
  unfold wfKeypair; infer_instance

/-- The keys of a JSON object (empty for every other JSON value). -/
def jsonObjKeys : Json → List String
  | .obj fields => fields.map Prod.fst
  | _ => []

/-- The error code e names a field of the transfer request whose string is
indeed a malformed address. -/
def fieldInvalid (request : TransferRequest) (e : String) : Prop :=
  (e = "invalid_destination" ∧ pubkeyFromStr request.destination = none) ∨
    (e = "invalid_mint" ∧ pubkeyFromStr request.mint = none) ∨
    (e = "invalid_owner" ∧ pubkeyFromStr request.owner = none)

/-- A string of n characters 1 (the base58 encoding of n zero bytes). -/
def onesStr (n : Nat) : String := String.mk (List.replicate n '1')

theorem spl_token_id_length : spl_token_id.length = 32 := by decide

/-- The bump loop finds an address when no candidate breaks the search and
some bump in the list is accepted. -/
theorem findBumpAux_isSome (hm : HashModel) (seeds : List (List Nat)) (program_id : Pubkey)
    (l : List Nat)
    (hnb : ∀ b ∈ l, create_program_address hm (seeds ++ [[b]]) program_id ≠
      .error .maxSeedLengthExceeded)
    (hex : ∃ b ∈ l, ∃ addr, create_program_address hm (seeds ++ [[b]]) program_id = .ok addr) :
    (findBumpAux hm seeds program_id l).isSome = true := by
  induction l with
  | nil =>
    obtain ⟨b, hb, _⟩ := hex
    simp at hb
  | cons x xs ih =>
    simp only [findBumpAux]
    cases hc : create_program_address hm (seeds ++ [[x]]) program_id with
    | ok addr => simp
    | error e =>
      cases e with
      | invalidSeeds =>
        apply ih
        · intro b hb
          exact hnb b (List.mem_cons_of_mem _ hb)
        · obtain ⟨b, hb, addr, hok⟩ := hex
          rcases List.mem_cons.mp hb with rfl | hb2
          · rw [hc] at hok
            exact absurd hok (by simp)
          · exact ⟨b, hb2, addr, hok⟩
      | maxSeedLengthExceeded => exact absurd hc (hnb x (List.mem_cons_self x xs))

/-- Fixture: an all-zero keypair. -/
def testKeypair : Keypair := ⟨List.replicate 32 0, List.replicate 32 0⟩

/-- Fixture: a signing primitive returning an all-zero 64-byte signature. -/
def testSign : Keypair → List Nat → List Nat := fun _ _ => List.replicate 64 0

/-- Fixture: a verification primitive accepting everything. -/
def testVerifyTrue : List Nat → Pubkey → List Nat → Bool := fun _ _ _ => true

/-- Fixture: a verification primitive rejecting everything. -/
def testVerifyFalse : List Nat → Pubkey → List Nat → Bool := fun _ _ _ => false

/-- Fixture: cryptographic primitives with a constant hash and an always-off
curve test. -/
def testHashModel : HashModel := ⟨fun _ => List.replicate 32 0, fun _ => false⟩

/-- Fixture: a node answering zero for every query. -/
def testEnv : LedgerEnv := ⟨fun _ => 0, 0, fun _ => ""⟩

/-- The create_token handler evaluated symbolically: the three calls in
order and the exact transaction submitted. -/
theorem create_token_spec (env : LedgerEnv) (body : CreateTokenRequest)
    (payer mint_authority mint_keypair : Keypair) :
    create_token env body payer mint_authority mint_keypair =
      ([.getMinimumBalanceForRentExemption mintLen, .getLatestBlockhash,
        .sendAndConfirmTransaction
          ⟨[create_account payer.pub mint_keypair.pub (env.min_balance mintLen) mintLen
              spl_token_id,
            ⟨spl_token_id, [⟨mint_keypair.pub, false, true⟩, ⟨sysvar_rent_id, false, false⟩],
              .initMint 9 mint_authority.pub (some mint_authority.pub)⟩],
            payer.pub, env.latest_blockhash, [payer.pub, mint_keypair.pub]⟩],
        .ok (Json.obj [])) := by
  have hreq : requiredSigners
      [create_account payer.pub mint_keypair.pub (env.min_balance mintLen) mintLen
          spl_token_id,
        ⟨spl_token_id, [⟨mint_keypair.pub, false, true⟩, ⟨sysvar_rent_id, false, false⟩],
          .initMint 9 mint_authority.pub (some mint_authority.pub)⟩] payer.pub =
      [payer.pub, payer.pub, mint_keypair.pub] := by
    simp [requiredSigners, create_account]
  have hcond : (∀ kp ∈ [payer, mint_keypair],
      kp.pub ∈ requiredSigners
        [create_account payer.pub mint_keypair.pub (env.min_balance mintLen) mintLen
            spl_token_id,
          ⟨spl_token_id, [⟨mint_keypair.pub, false, true⟩, ⟨sysvar_rent_id, false, false⟩],
            .initMint 9 mint_authority.pub (some mint_authority.pub)⟩] payer.pub) ∧
      (∀ r ∈ requiredSigners
        [create_account payer.pub mint_keypair.pub (env.min_balance mintLen) mintLen
            spl_token_id,
          ⟨spl_token_id, [⟨mint_keypair.pub, false, true⟩, ⟨sysvar_rent_id, false, false⟩],
            .initMint 9 mint_authority.pub (some mint_authority.pub)⟩] payer.pub,
        ∃ kp ∈ [payer, mint_keypair], kp.pub = r) := by
    rw [hreq]
    constructor
    · intro kp hk
      rcases List.mem_cons.mp hk with rfl | hk2
      · simp
      · rcases List.mem_cons.mp hk2 with rfl | hk3
        · simp
        · simp at hk3
    · intro r hr
      rcases List.mem_cons.mp hr with rfl | hr2
      · exact ⟨payer, by simp⟩
      · rcases List.mem_cons.mp hr2 with rfl | hr3
        · exact ⟨payer, by simp⟩
        · rcases List.mem_cons.mp hr3 with rfl | hr4
          · exact ⟨mint_keypair, by simp⟩
          · simp at hr4
  have hinit : init_mint spl_token_id mint_keypair.pub mint_authority.pub
      (some mint_authority.pub) 9 = some ⟨spl_token_id,
        [⟨mint_keypair.pub, false, true⟩, ⟨sysvar_rent_id, false, false⟩],
        .initMint 9 mint_authority.pub (some mint_authority.pub)⟩ := by
    simp [init_mint]
  have hsign : new_signed_with_payer
      [create_account payer.pub mint_keypair.pub (env.min_balance mintLen) mintLen
          spl_token_id,
        ⟨spl_token_id, [⟨mint_keypair.pub, false, true⟩, ⟨sysvar_rent_id, false, false⟩],
          .initMint 9 mint_authority.pub (some mint_authority.pub)⟩] payer.pub
      [payer, mint_keypair] env.latest_blockhash =
      .ok ⟨[create_account payer.pub mint_keypair.pub (env.min_balance mintLen) mintLen
          spl_token_id,
        ⟨spl_token_id, [⟨mint_keypair.pub, false, true⟩, ⟨sysvar_rent_id, false, false⟩],
          .initMint 9 mint_authority.pub (some mint_authority.pub)⟩],
        payer.pub, env.latest_blockhash, [payer.pub, mint_keypair.pub]⟩ := by
    rw [new_signed_with_payer, if_pos hcond]
    rfl
  simp only [create_token, hinit, hsign]

/-! ## Claims -/

/-- C9: the create-and-initialize-mint flow first queries the rent-exempt
minimum for the fixed mint account size, then submits exactly one
transaction holding the create-account instruction, funded with exactly the
queried lamports and that size, followed by the initialize-mint instruction,
with the new mint account and the payer as the transaction's signers and the
payer as fee payer. -/
theorem c9_create_flow (env : LedgerEnv) (body : CreateTokenRequest)
    (payer mint_authority mint_keypair : Keypair) :
    ∃ tx : Transaction,
      create_token env body payer mint_authority mint_keypair =
        ([.getMinimumBalanceForRentExemption mintLen, .getLatestBlockhash,
          .sendAndConfirmTransaction tx], .ok (Json.obj [])) ∧
      tx.instructions =
        [create_account payer.pub mint_keypair.pub (env.min_balance mintLen) mintLen
            spl_token_id,
          ⟨spl_token_id, [⟨mint_keypair.pub, false, true⟩, ⟨sysvar_rent_id, false, false⟩],
            .initMint 9 mint_authority.pub (some mint_authority.pub)⟩] ∧
      tx.fee_payer = payer.pub ∧
      tx.signer_pubkeys = [payer.pub, mint_keypair.pub] :=
  ⟨_, create_token_spec env body payer mint_authority mint_keypair, rfl, rfl, rfl⟩

/-- C10: the transaction built by the /token/create handler does not depend
on the request body; the initialize-mint instruction always carries decimals
9, and the mint authority, freeze authority, mint account and fee payer are
the freshly generated keypairs, never the caller-supplied values. -/
theorem c10_create_token_ignores_request (env : LedgerEnv)
    (b1 b2 : CreateTokenRequest) (payer mint_authority mint_keypair : Keypair) :
    create_token env b1 payer mint_authority mint_keypair =
        create_token env b2 payer mint_authority mint_keypair ∧
      create_token env b1 payer mint_authority mint_keypair =
        ([.getMinimumBalanceForRentExemption mintLen, .getLatestBlockhash,
          .sendAndConfirmTransaction
            ⟨[create_account payer.pub mint_keypair.pub (env.min_balance mintLen) mintLen
                spl_token_id,
              ⟨spl_token_id, [⟨mint_keypair.pub, false, true⟩, ⟨sysvar_rent_id, false, false⟩],
                .initMint 9 mint_authority.pub (some mint_authority.pub)⟩],
              payer.pub, env.latest_blockhash, [payer.pub, mint_keypair.pub]⟩],
          .ok (Json.obj [])) :=
  ⟨(create_token_spec env b1 payer mint_authority mint_keypair).trans
      (create_token_spec env b2 payer mint_authority mint_keypair).symm,
    create_token_spec env b1 payer mint_authority mint_keypair⟩

/-- C2 is refuted by the code: for every request body, in particular for
decimals -1 or 300, the create_token handler's first action is the
rent-query network call and its response is the empty-object success; no
InvalidParameter rejection exists and no request is refused before the
network is contacted. -/
theorem c2_create_token_never_rejects_decimals (env : LedgerEnv)
    (ma mi : String) (d : Int) (payer mint_authority mint_keypair : Keypair) :
    (create_token env ⟨ma, mi, d⟩ payer mint_authority mint_keypair).1.head? =
        some (.getMinimumBalanceForRentExemption mintLen) ∧
      (create_token env ⟨ma, mi, d⟩ payer mint_authority mint_keypair).2 =
        .ok (Json.obj []) := by
  rw [create_token_spec]
  exact ⟨rfl, rfl⟩

/-- C7 is refuted by the code: on its success path the create_token handler
answers with the empty JSON object, which carries neither a mintAddress nor
a signature key (the values are only printed to standard output). -/
theorem c7_create_token_response_empty (env : LedgerEnv) (body : CreateTokenRequest)
    (payer mint_authority mint_keypair : Keypair) :
    (create_token env body payer mint_authority mint_keypair).2 = .ok (Json.obj []) ∧
      jsonObjKeys (Json.obj []) = [] := by
  rw [create_token_spec]
  exact ⟨rfl, rfl⟩

/-- C1 is refuted for the transfer flow: execute_spl_transfer passes an
empty signer slice to Transaction::new_signed_with_payer while the owner,
being fee payer and transfer authority, is a required signer, so signing
panics: the flow never attaches the owner's signature and never submits any
transaction. -/
theorem c1_transfer_flow_never_submits (hmod : HashModel) (env : LedgerEnv)
    (owner_pubkey destination_pubkey mint_pubkey : Pubkey) (amount : Nat) :
    (execute_spl_transfer hmod env owner_pubkey destination_pubkey mint_pubkey amount).2 =
        .panicked ∧
      ∀ tx, RpcCall.sendAndConfirmTransaction tx ∉
        (execute_spl_transfer hmod env owner_pubkey destination_pubkey mint_pubkey amount).1 := by
  have hns : ∀ ix : Instruction,
      new_signed_with_payer [ix] owner_pubkey [] env.latest_blockhash = .error .panic := by
    intro ix
    rw [new_signed_with_payer, if_neg]
    rintro ⟨_, h2⟩
    obtain ⟨kp, hk, _⟩ := h2 owner_pubkey (by simp [requiredSigners])
    simp at hk
  unfold execute_spl_transfer
  cases get_associated_token_address hmod owner_pubkey mint_pubkey <;>
    cases get_associated_token_address hmod destination_pubkey mint_pubkey <;>
    simp [spl_transfer, hns]

/-- C6: when any of destination, mint or owner is a malformed address
string, send_spl_token answers 400 with an error naming a field that is
indeed malformed, and makes no network call at all. -/
theorem c6_send_token_fail_fast (hmod : HashModel) (env : LedgerEnv)
    (request : TransferRequest)
    (h : pubkeyFromStr request.destination = none ∨ pubkeyFromStr request.mint = none ∨
      pubkeyFromStr request.owner = none) :
    (send_spl_token hmod env request).2 = [] ∧
      ∃ e msg, (send_spl_token hmod env request).1 =
          .ok (statusBadRequest, Json.obj [("error", Json.str e),
            ("message", Json.str msg)]) ∧
        fieldInvalid request e := by
  unfold send_spl_token
  cases hd : pubkeyFromStr request.destination with
  | none =>
    exact ⟨rfl, "invalid_destination", "Invalid destination address format", rfl,
      Or.inl ⟨rfl, hd⟩⟩
  | some dpk =>
    cases hmi : pubkeyFromStr request.mint with
    | none =>
      exact ⟨rfl, "invalid_mint", "Invalid mint address format", rfl,
        Or.inr (Or.inl ⟨rfl, hmi⟩)⟩
    | some mpk =>
      cases ho : pubkeyFromStr request.owner with
      | none =>
        exact ⟨rfl, "invalid_owner", "Invalid owner address format", rfl,
          Or.inr (Or.inr ⟨rfl, ho⟩)⟩
      | some opk =>
        rcases h with h | h | h
        · rw [hd] at h; exact absurd h (by simp)
        · rw [hmi] at h; exact absurd h (by simp)
        · rw [ho] at h; exact absurd h (by simp)

/-- Witness for C6 at a concrete malformed request. -/
theorem c6_witness :
    (pubkeyFromStr "!" = none ∨ pubkeyFromStr "ok" = none ∨ pubkeyFromStr "ok" = none) ∧
      ((send_spl_token testHashModel testEnv ⟨"!", "ok", "ok", 1⟩).2 = [] ∧
        ∃ e msg, (send_spl_token testHashModel testEnv ⟨"!", "ok", "ok", 1⟩).1 =
            .ok (statusBadRequest, Json.obj [("error", Json.str e),
              ("message", Json.str msg)]) ∧
          fieldInvalid ⟨"!", "ok", "ok", 1⟩ e) :=
  ⟨Or.inl (by decide), c6_send_token_fail_fast testHashModel testEnv ⟨"!", "ok", "ok", 1⟩
    (Or.inl (by decide))⟩

/-- C5 is refuted by the code: a secret that is not a well-formed base58
encoding of 64 bytes makes sign_message panic through the unwraps inside
Keypair::from_base58_string, instead of returning the InvalidKeyEncoding
failure response: the string x decodes to a single byte, and the string !
is not base58 at all. -/
theorem c5_sign_message_panics (sign : Keypair → List Nat → List Nat) (msg : String) :
    sign_message sign ⟨msg, "x"⟩ = .error .panic ∧
      sign_message sign ⟨msg, "!"⟩ = .error .panic :=
  ⟨rfl, rfl⟩

/-- Counterexample to C3 as stated: at a request whose signature and pubkey
both decode (64 and 32 ones) and whose verification rejects, the handler
answers 400 with success false and error Invalid signature, an error
outcome; it never returns a 200 success carrying valid false. -/
theorem c3_counterexample :
    verify_message testVerifyFalse ⟨"m", onesStr 64, onesStr 32⟩ =
        (statusBadRequest, Json.obj [("success", Json.bool false),
          ("error", Json.str "Invalid signature")]) ∧
      ∀ j : Json, verify_message testVerifyFalse ⟨"m", onesStr 64, onesStr 32⟩ ≠
        (statusOk, j) := by
  refine ⟨rfl, ?_⟩
  intro j h
  have h3 : statusBadRequest = statusOk := congrArg Prod.fst h
  exact absurd h3 (by decide)

/-- C3 amended: a well-formed but non-matching signature yields the 400
failure response with error Invalid signature, which is observably distinct
from the malformed-input outcome, whose error is Missing Fields. -/
theorem c3_amended_invalid_signature_is_error (verify : List Nat → Pubkey → List Nat → Bool)
    (body : VerifyMessageRequest) (sg : List Nat) (pk : Pubkey)
    (hs : sigFromStr body.signature = some sg)
    (hp : pubkeyFromStr body.pubkey = some pk)
    (hv : verify sg pk (utf8Bytes body.message) = false) :
    verify_message verify body =
        (statusBadRequest, Json.obj [("success", Json.bool false),
          ("error", Json.str "Invalid signature")]) ∧
      verify_message verify body ≠
        (statusBadRequest, Json.obj [("success", Json.bool false),
          ("error", Json.str "Missing Fields")]) := by
  have heq : verify_message verify body =
      (statusBadRequest, Json.obj [("success", Json.bool false),
        ("error", Json.str "Invalid signature")]) := by
    unfold verify_message
    rw [hs, hp]
    simp [hv]
  refine ⟨heq, ?_⟩
  rw [heq]
  intro hcontra
  have h2 : Json.obj [("success", Json.bool false), ("error", Json.str "Invalid signature")] =
      Json.obj [("success", Json.bool false), ("error", Json.str "Missing Fields")] :=
    congrArg Prod.snd hcontra
  simp at h2

/-- Witness for the amended C3 at a concrete request. -/
theorem c3_witness :
    (sigFromStr (onesStr 64) = some (List.replicate 64 0) ∧
      pubkeyFromStr (onesStr 32) = some (List.replicate 32 0) ∧
      testVerifyFalse (List.replicate 64 0) (List.replicate 32 0) (utf8Bytes "m") = false) ∧
      (verify_message testVerifyFalse ⟨"m", onesStr 64, onesStr 32⟩ =
          (statusBadRequest, Json.obj [("success", Json.bool false),
            ("error", Json.str "Invalid signature")]) ∧
        verify_message testVerifyFalse ⟨"m", onesStr 64, onesStr 32⟩ ≠
          (statusBadRequest, Json.obj [("success", Json.bool false),
            ("error", Json.str "Missing Fields")])) :=
  ⟨⟨by decide, by decide, rfl⟩,
    c3_amended_invalid_signature_is_error testVerifyFalse ⟨"m", onesStr 64, onesStr 32⟩
      (List.replicate 64 0) (List.replicate 32 0) (by decide) (by decide) rfl⟩

/-- C4: for every keypair and every message, signing through the
/message/sign flow and feeding the produced signature and public key strings
with the same message into the /message/verify flow answers the 200 success
with valid true.  The hypotheses are the contract of the external ed25519
library: the signature is 64 bytes and verification accepts a signature the
same library produced over the same message and key. -/
theorem c4_sign_verify_roundtrip (sign : Keypair → List Nat → List Nat)
    (verify : List Nat → Pubkey → List Nat → Bool) (kp : Keypair) (message : String)
    (hkp : wfKeypair kp)
    (hsig : wfBytes (sign kp (utf8Bytes message)) 64)
    (hverify : verify (sign kp (utf8Bytes message)) kp.pub (utf8Bytes message) = true) :
    sign_message sign ⟨message, keypairToBase58String kp⟩ =
        .ok (Json.obj [("success", Json.bool true),
          ("data", Json.obj [
            ("signature", Json.str (sigToString (sign kp (utf8Bytes message)))),
            ("public_key", Json.str (pubkeyToString kp.pub)),
            ("message", Json.arr ((utf8Bytes message).map (fun b => Json.num (Int.ofNat b))))])]) ∧
      verify_message verify ⟨message, sigToString (sign kp (utf8Bytes message)),
          pubkeyToString kp.pub⟩ =
        (statusOk, Json.obj [("success", Json.bool true),
          ("data", Json.obj [("valid", Json.bool true),
            ("message", Json.str "Hello, Solana!"),
            ("pubkey", Json.str "base58-encoded-public-key")])]) := by
  constructor
  · unfold sign_message
    rw [keypairFromBase58String_toBase58String kp hkp]
  · unfold verify_message
    rw [sigFromStr_toString _ hsig, pubkeyFromStr_toString kp.pub hkp.2]
    simp [hverify]

/-- Witness for C4 at a concrete keypair, message and scheme. -/
theorem c4_witness :
    (wfKeypair testKeypair ∧ wfBytes (testSign testKeypair (utf8Bytes "")) 64 ∧
      testVerifyTrue (testSign testKeypair (utf8Bytes "")) testKeypair.pub
        (utf8Bytes "") = true) ∧
      (sign_message testSign ⟨"", keypairToBase58String testKeypair⟩ =
          .ok (Json.obj [("success", Json.bool true),
            ("data", Json.obj [
              ("signature", Json.str (sigToString (testSign testKeypair (utf8Bytes "")))),
              ("public_key", Json.str (pubkeyToString testKeypair.pub)),
              ("message", Json.arr ((utf8Bytes "").map (fun b => Json.num (Int.ofNat b))))])]) ∧
        verify_message testVerifyTrue ⟨"", sigToString (testSign testKeypair (utf8Bytes "")),
            pubkeyToString testKeypair.pub⟩ =
          (statusOk, Json.obj [("success", Json.bool true),
            ("data", Json.obj [("valid", Json.bool true),
              ("message", Json.str "Hello, Solana!"),
              ("pubkey", Json.str "base58-encoded-public-key")])])) :=
  ⟨⟨by decide, by decide, rfl⟩,
    c4_sign_verify_roundtrip testSign testVerifyTrue testKeypair ""
      (by decide) (by decide) rfl⟩

/-- C8: the associated-token-account derivation is a pure function of the
owner and mint addresses, identical inputs giving the identical address, and
for 32-byte inputs it returns an address as soon as some bump among 255 down
to 1 (the bumps the sdk loop tries; bump 0 is never tried) yields an
accepted, off-curve candidate: the sole failure path of the source is the
unwrap that fires when every tried candidate is on the curve, a property of
the external hash. -/
theorem c8_derive_ata_pure (hmod : HashModel) (o1 m1 o2 m2 : Pubkey)
    (h1 : o1 = o2) (h2 : m1 = m2)
    (hlo : o1.length = 32) (hlm : m1.length = 32)
    (hoff : ∃ bump, 1 ≤ bump ∧ bump < 256 ∧ ∃ addr,
      create_program_address hmod [o1, spl_token_id, m1, [bump]] ata_program_id =
        .ok addr) :
    get_associated_token_address hmod o1 m1 = get_associated_token_address hmod o2 m2 ∧
      (get_associated_token_address hmod o1 m1).isSome = true := by
  subst h1
  subst h2
  refine ⟨rfl, ?_⟩
  obtain ⟨bump, hb1, hb2, addr, hok⟩ := hoff
  have hnb : ∀ b ∈ (List.range' 1 255).reverse,
      create_program_address hmod ([o1, spl_token_id, m1] ++ [[b]]) ata_program_id ≠
        .error .maxSeedLengthExceeded := by
    intro b _
    have hc1 : ¬(([o1, spl_token_id, m1] ++ [[b]] : List (List Nat)).length > maxSeeds) := by
      simp [maxSeeds]
    have hc2 : ¬((([o1, spl_token_id, m1] ++ [[b]] : List (List Nat))).any
        (fun s => s.length > maxSeedLen) = true) := by
      simp [maxSeedLen, hlo, hlm, spl_token_id_length]
    have haux : ∀ (c : Bool) (hsh : Pubkey),
        (if c = true then Except.error PubkeyError.invalidSeeds else Except.ok hsh) ≠
          Except.error PubkeyError.maxSeedLengthExceeded := by
      intro c hsh
      cases c <;> simp
    rw [create_program_address, if_neg hc1, if_neg hc2]
    exact haux _ _
  have hex : ∃ b ∈ (List.range' 1 255).reverse, ∃ a,
      create_program_address hmod ([o1, spl_token_id, m1] ++ [[b]]) ata_program_id =
        .ok a := by
    refine ⟨bump, ?_, addr, ?_⟩
    · rw [List.mem_reverse, List.mem_range'_1]
      omega
    · rw [show ([o1, spl_token_id, m1] ++ [[bump]] : List (List Nat)) =
        [o1, spl_token_id, m1, [bump]] from rfl]
      exact hok
  have hsome := findBumpAux_isSome hmod [o1, spl_token_id, m1] ata_program_id
    (List.range' 1 255).reverse hnb hex
  rw [get_associated_token_address]
  cases hX : try_find_program_address hmod [o1, spl_token_id, m1] ata_program_id with
  | none =>
    rw [try_find_program_address] at hX
    rw [hX] at hsome
    simp at hsome
  | some v => rfl

/-- Witness for C8 at concrete addresses and hash primitives, with the
off-curve bump 255. -/
theorem c8_witness :
    ((List.replicate 32 2 : Pubkey) = List.replicate 32 2 ∧
      (List.replicate 32 3 : Pubkey) = List.replicate 32 3 ∧
      (List.replicate 32 2 : Pubkey).length = 32 ∧
      (List.replicate 32 3 : Pubkey).length = 32 ∧
      ∃ bump, 1 ≤ bump ∧ bump < 256 ∧ ∃ addr, create_program_address testHashModel
        [List.replicate 32 2, spl_token_id, List.replicate 32 3, [bump]]
        ata_program_id = .ok addr) ∧
      (get_associated_token_address testHashModel (List.replicate 32 2)
          (List.replicate 32 3) =
        get_associated_token_address testHashModel (List.replicate 32 2)
          (List.replicate 32 3) ∧
        (get_associated_token_address testHashModel (List.replicate 32 2)
          (List.replicate 32 3)).isSome = true) :=
  ⟨⟨rfl, rfl, rfl, rfl, 255, by norm_num, by norm_num, _, rfl⟩,
    c8_derive_ata_pure testHashModel (List.replicate 32 2) (List.replicate 32 3)
      (List.replicate 32 2) (List.replicate 32 3) rfl rfl rfl rfl
      ⟨255, by norm_num, by norm_num, _, rfl⟩⟩

end Superfundev
